import Mathlib

/-!
Shallow embedding of the tesseract-wasm OCR session engine.

The embedding covers two layers of the source, combined into one state type:

* `src/src/lib.cpp` — the C++ `OCREngine` wrapper around tesseract: the
  memoization flags `layout_analysis_done_` / `ocr_done_`, `LoadModel`,
  `LoadImage`, `ClearImage`, `GetBoundingBoxes`, `GetTextBoxes`, `GetText`,
  `GetHOCR`, `GetOrientation`, `GetBoxes` and `DoOCR`.
* `src/unnamed/part_000` — the JS `OCREngine` wrapper: the `_modelLoaded` /
  `_imageLoaded` guards and the argument validation in `loadImage`.

The tesseract / leptonica backend itself is an external collaborator (spec §6);
its responses are modelled by a `Backend` structure of deterministic oracles.
Machine floats (`float` confidences) are modelled as rationals; the decision
structure of the code (comparisons, multiplications by constants) is preserved
exactly.  JS exceptions are modelled with `Except EngineError`, using the error
names of the spec's taxonomy (spec §7): the JS message "No image loaded" is
`NoImageError`, "No text recognition model loaded" is `NoModelError`,
the two `loadImage` validation messages are `InvalidImageError`,
"Failed to load image" (pixReadMem failure) is `ImageDecodeError`, and
"Text recognition model failed to load" is `ModelLoadError`.
Since a JS method can throw after having already mutated state, every
operation returns the resulting state alongside its `Except` result.
-/

/-- `IntRect` from lib.cpp: axis-aligned rectangle, all fields default 0. -/
structure IntRect where
  left : Int := 0
  right : Int := 0
  top : Int := 0
  bottom : Int := 0
deriving DecidableEq

/-- `LayoutFlag::StartOfLine = 1` from lib.cpp. -/
def StartOfLine : Nat := 1

/-- `LayoutFlag::EndOfLine = 2` from lib.cpp. -/
def EndOfLine : Nat := 2

/-- `TextRect` from lib.cpp (`TextItem` on the JS side): rect, bit flags,
confidence (float modelled as ℚ), text.  Defaults as in the C++ initializers. -/
structure TextRect where
  rect : IntRect := {}
  flags : Nat := 0
  confidence : ℚ := 0
  text : String := ""
deriving DecidableEq

/-- Whether a layout flag bit is set in a `TextRect`, as a JS caller would
test it (`item.flags & layoutFlags.StartOfLine`). -/
def TextRect.hasFlag (tr : TextRect) (f : Nat) : Bool :=
  (tr.flags &&& f) != 0

/-- `Orientation` from lib.cpp (renamed here because Mathlib already has an
`Orientation`); `return {}` in `GetOrientation` yields these defaults
(rotation 0, confidence 0). -/
structure PageOrientation where
  rotation : Int := 0
  confidence : ℚ := 0
deriving DecidableEq

/-- `enum class TextUnit { Word, Line }` from lib.cpp: `Word` has value 0 and
`Line` value 1, so `unit < TextUnit::Line` means word (or finer) granularity. -/
inductive TextUnit
  | Word
  | Line
deriving DecidableEq

/-- Numeric value of the C++ enum constant. -/
def TextUnit.toNat : TextUnit → Nat
  | .Word => 0
  | .Line => 1

/-- One recognized word inside the backend result hierarchy: bounding box,
raw percentage confidence and UTF-8 text as exposed by the backend's
result iterator. -/
structure WordCell where
  rect : IntRect := {}
  rawConf : ℚ := 0
  text : String := ""
deriving DecidableEq

/-- One text line of the backend result hierarchy together with its words. -/
structure LineCell where
  rect : IntRect := {}
  rawConf : ℚ := 0
  text : String := ""
  words : List WordCell := []
deriving DecidableEq

/-- The backend's layout/recognition result for one page: the list of text
lines in reading order.  `none` at the use sites below stands for
`GetIterator()` returning a null iterator (e.g. a blank page). -/
abbrev Page := List LineCell

/-- The image handed to `loadImage`: the JS `ImageData`-like argument.
`width`/`height`/`dataLength` drive the JS validation; `content` is an opaque
identifier of the byte content, consumed only by the backend oracles. -/
structure ImageData where
  width : Int := 0
  height : Int := 0
  dataLength : Nat := 0
  content : Nat := 0
deriving DecidableEq

/-- Deterministic oracles for the external tesseract / leptonica backend
(spec §6 collaborator interfaces).  Each field is the backend's fixed response
to one native call made by lib.cpp. -/
structure Backend where
  /-- Does `TessBaseAPI::Init` accept this model's bytes (`LoadModel`)? -/
  initOk : Nat → Bool
  /-- Does `pixReadMem` decode this image's bytes (`LoadImage`)? -/
  pixReadOk : ImageData → Bool
  /-- Result hierarchy produced by `AnalyseLayout` for an image;
  `none` means no result iterator (blank page). -/
  analyzeResult : ImageData → Option Page
  /-- Result hierarchy produced by `Recognize` for an image. -/
  recogResult : ImageData → Option Page
  /-- Progress percentages the backend reports through the progress
  monitor during `Recognize`. -/
  recogProgress : ImageData → List Nat
  /-- `pixOrientDetect` on the thresholded image: `none` models a nonzero
  error return, `some (up_conf, left_conf)` a successful detection. -/
  orientDetect : ImageData → Option (ℚ × ℚ)
  /-- `GetUTF8Text` read from the current result state. -/
  utf8Text : Option Page → String
  /-- `GetHOCRText(0)` read from the current result state. -/
  hocrText : Option Page → String
  /-- `TessBaseAPI::Version()`. -/
  tessVersion : String

/-- Internal state of the `tesseract_` member of the C++ `OCREngine`:
current image, current result hierarchy, whether lines/recognition have been
computed, the loaded model, plus counters of the expensive passes (the "call
counter on a test double of the backend" of spec §8). -/
structure TessBase where
  image : Option ImageData := none
  page : Option Page := none
  layoutComputed : Bool := false
  recognized : Bool := false
  model : Option Nat := none
  layoutRuns : Nat := 0
  recogRuns : Nat := 0
deriving DecidableEq

/-- Combined state of the C++ `OCREngine` (fields `layout_analysis_done_`,
`ocr_done_`, `tesseract_`) and of the JS `OCREngine` wrapper (fields
`_modelLoaded`, `_imageLoaded`). -/
structure Engine where
  tess : TessBase := {}
  layout_analysis_done : Bool := false
  ocr_done : Bool := false
  modelLoaded : Bool := false
  imageLoaded : Bool := false
deriving DecidableEq

/-- A freshly constructed engine: all four lifecycle flags false. -/
def initEngine : Engine := {}

/-- The spec's error taxonomy (spec §7) for the exceptions/errors raised by
the two wrappers. -/
inductive EngineError
  | NoImageError
  | NoModelError
  | InvalidImageError
  | ImageDecodeError
  | ModelLoadError
deriving DecidableEq

/-- `tesseract_->AnalyseLayout()`: runs the layout pass over the current
image, storing its result hierarchy.  One expensive layout pass
(`layoutRuns` incremented). -/
def TessBase.analyseLayout (b : Backend) (t : TessBase) : TessBase :=
  { t with
    page := t.image.bind b.analyzeResult
    layoutComputed := true
    layoutRuns := t.layoutRuns + 1 }

/-- `tesseract_->Recognize(&monitor)`.  Modelled from the spec (§4.2): the
external recognizer "performs layout analysis internally if not already done",
so the internal layout pass is counted only when `layoutComputed` is still
false.  Returns the new backend state and the progress percentages reported
through the monitor.  With no image set the call does nothing expensive. -/
def TessBase.recognize (b : Backend) (t : TessBase) : TessBase × List Nat :=
  match t.image with
  | none => ({ t with layoutComputed := true, recognized := true }, [])
  | some img =>
      ({ t with
          page := b.recogResult img
          layoutComputed := true
          recognized := true
          layoutRuns := if t.layoutComputed then t.layoutRuns else t.layoutRuns + 1
          recogRuns := t.recogRuns + 1 },
        b.recogProgress img)

/-- The `TextRect` built by one iteration of the `GetBoxes` loop at word
level, for the word at index `i` of a line of `n` words: the iterator's
`IsAtBeginningOf(RIL_TEXTLINE)` holds exactly for the first word of the line
and `IsAtFinalElement(RIL_TEXTLINE, level)` exactly for the last. -/
def wordTextRect (with_text : Bool) (n i : Nat) (w : WordCell) : TextRect :=
  { rect := w.rect
    flags := (if i = 0 then StartOfLine else 0) ||| (if i + 1 = n then EndOfLine else 0)
    confidence := if with_text then w.rawConf * (1 / 100) else 0
    text := if with_text then w.text else "" }

/-- The `TextRect` built by one iteration of the `GetBoxes` loop at line
level: the flag computation is skipped (`unit < TextUnit::Line` is false),
so `flags` keeps its initializer 0.  Confidence is the raw percentage times
0.01 as in the source. -/
def lineTextRect (with_text : Bool) (ln : LineCell) : TextRect :=
  { rect := ln.rect
    flags := 0
    confidence := if with_text then ln.rawConf * (1 / 100) else 0
    text := if with_text then ln.text else "" }

/-- The full traversal of the `GetBoxes` do/while loop over a non-null result
iterator: at word granularity it visits every word of every line in order,
at line granularity every line. -/
def getBoxesFromPage (page : Page) (unit : TextUnit) (with_text : Bool) :
    List TextRect :=
  if unit.toNat < TextUnit.Line.toNat then
    page.flatMap fun ln =>
      ln.words.enum.map fun p => wordTextRect with_text ln.words.length p.1 p.2
  else
    page.map (lineTextRect with_text)

/-- `OCREngine::GetBoxes` from lib.cpp: if `GetIterator()` returns null the
result is the empty vector, otherwise the loop traverses the iterator. -/
def getBoxes (t : TessBase) (unit : TextUnit) (with_text : Bool) :
    List TextRect :=
  match t.page with
  | none => []
  | some page => getBoxesFromPage page unit with_text

/-- JS `loadModel` (part_000) around C++ `OCREngine::LoadModel` (lib.cpp):
`Init` failure throws `ModelLoadError` before `_modelLoaded` is set. -/
def loadModel (b : Backend) (e : Engine) (m : Nat) :
    Except EngineError Unit × Engine :=
  if b.initOk m then
    (.ok (), { e with tess := { e.tess with model := some m }, modelLoaded := true })
  else
    (.error .ModelLoadError, e)

/-- C++ `OCREngine::ClearImage` (lib.cpp): `tesseract_->Clear()` drops the
image and any result state, then both memoization flags are reset.  The JS
`_imageLoaded` flag is untouched (the binding-level call has no JS wrapper
in the source). -/
def clearImage (e : Engine) : Engine :=
  { e with
    tess := { e.tess with
      image := none
      page := none
      layoutComputed := false
      recognized := false }
    layout_analysis_done := false
    ocr_done := false }

/-- JS `loadImage` (part_000) around C++ `OCREngine::LoadImage` (lib.cpp).
The JS code first validates the pixel-buffer length and the dimensions
(throwing before any mutation), then calls `clearImage()` to release the
previous image, then hands the bytes to the C++ side, where a `pixReadMem`
failure is reported as an error; only on success is `_imageLoaded` set. -/
def loadImage (b : Backend) (e : Engine) (img : ImageData) :
    Except EngineError Unit × Engine :=
  if (img.dataLength : Int) < img.width * img.height * 4 then
    (.error .InvalidImageError, e)
  else if img.width ≤ 0 ∨ img.height ≤ 0 then
    (.error .InvalidImageError, e)
  else
    let e1 := clearImage e
    if b.pixReadOk img then
      (.ok (), { e1 with
        tess := { e1.tess with image := some img }
        layout_analysis_done := false
        ocr_done := false
        imageLoaded := true })
    else
      (.error .ImageDecodeError, e1)

/-- JS `getBoundingBoxes` (part_000) around C++ `OCREngine::GetBoundingBoxes`
(lib.cpp): `_checkImageLoaded`, then `AnalyseLayout` only if
`layout_analysis_done_` is still false, then `GetBoxes(unit, false)`. -/
def getBoundingBoxes (b : Backend) (e : Engine) (unit : TextUnit) :
    Except EngineError (List TextRect) × Engine :=
  if e.imageLoaded = false then
    (.error .NoImageError, e)
  else
    let e2 :=
      if e.layout_analysis_done = false then
        { e with tess := e.tess.analyseLayout b, layout_analysis_done := true }
      else e
    (.ok (getBoxes e2.tess unit false), e2)

/-- C++ `OCREngine::DoOCR` (lib.cpp): run `Recognize` only if `ocr_done_` is
false, setting both memoization flags, then always force a final
`ProgressChanged(100)`.  The second component is the trace of progress values
delivered to the caller's callback. -/
def doOCR (b : Backend) (e : Engine) : Engine × List Nat :=
  if e.ocr_done = false then
    let r := e.tess.recognize b
    ({ e with tess := r.1, layout_analysis_done := true, ocr_done := true },
      r.2 ++ [100])
  else
    (e, [100])

/-- JS `getTextBoxes` (part_000) around C++ `OCREngine::GetTextBoxes`
(lib.cpp): image guard, model guard, `DoOCR`, then `GetBoxes(unit, true)`. -/
def getTextBoxes (b : Backend) (e : Engine) (unit : TextUnit) :
    Except EngineError (List TextRect) × Engine × List Nat :=
  if e.imageLoaded = false then
    (.error .NoImageError, e, [])
  else if e.modelLoaded = false then
    (.error .NoModelError, e, [])
  else
    let r := doOCR b e
    (.ok (getBoxes r.1.tess unit true), r.1, r.2)

/-- JS `getText` (part_000) around C++ `OCREngine::GetText` (lib.cpp). -/
def getText (b : Backend) (e : Engine) :
    Except EngineError String × Engine × List Nat :=
  if e.imageLoaded = false then
    (.error .NoImageError, e, [])
  else if e.modelLoaded = false then
    (.error .NoModelError, e, [])
  else
    let r := doOCR b e
    (.ok (b.utf8Text r.1.tess.page), r.1, r.2)

/-- The hOCR document assembled by C++ `OCREngine::GetHOCR` (lib.cpp): a
fixed XHTML header with one substitution point for the backend version,
the backend-produced body, and a fixed footer.  The exact header text is
immaterial to the claims; the shape (fixed frame, version substitution,
opaque body) mirrors the `std::format` call in the source. -/
def hocrDoc (v body : String) : String :=
  "<?xml version=\"1.0\" encoding=\"UTF-8\"?><html xmlns=\"http://www.w3.org/1999/xhtml\"><head><title>hOCR text</title><meta content=\"tesseract "
    ++ v ++ "\" /></head><body>" ++ body ++ "</body></html>"

/-- Modelled from the spec: the JS wrapper method for `hocr` is code of this
repository that is not under src/ (only the C++ `OCREngine::GetHOCR` and its
Embind binding are).  Per spec §4.1 `hocr(onProgress)` has the same
preconditions as `text`: it fails with `NoImageError` / `NoModelError` when
called out of lifecycle order, and otherwise calls the C++ side, which is
modelled from lib.cpp lines 209-233. -/
def getHOCR (b : Backend) (e : Engine) :
    Except EngineError String × Engine × List Nat :=
  if e.imageLoaded = false then
    (.error .NoImageError, e, [])
  else if e.modelLoaded = false then
    (.error .NoModelError, e, [])
  else
    let r := doOCR b e
    (.ok (hocrDoc b.tessVersion (b.hocrText r.1.tess.page)), r.1, r.2)

/-- The pure decision rule of C++ `OCREngine::GetOrientation` (lib.cpp lines
257-280), applied to the outcome of `pixOrientDetect`: on detector error the
default `Orientation` (rotation 0, confidence 0) is returned; otherwise the
four-way branch on `abs(up_conf) - abs(left_conf) > 5.0`, `up_conf > 0` and
`left_conf < 0` picks the rotation and the confidence is 1. -/
def orientationFromDetect : Option (ℚ × ℚ) → PageOrientation
  | none => {}
  | some (up_conf, left_conf) =>
      let rotation : Int :=
        if |up_conf| - |left_conf| > 5 then
          if up_conf > 0 then 0 else 180
        else
          if left_conf < 0 then 90 else 270
      { rotation := rotation, confidence := 1 }

/-- JS `getOrientation` (part_000) around C++ `OCREngine::GetOrientation`
(lib.cpp): image guard, then the leptonica detector on the thresholded
current image, then the decision rule. -/
def getOrientation (b : Backend) (e : Engine) :
    Except EngineError PageOrientation × Engine :=
  if e.imageLoaded = false then
    (.error .NoImageError, e)
  else
    (.ok (orientationFromDetect (e.tess.image.bind b.orientDetect)), e)

/-- `jsArrayFromStdVector` from part_000: builds a JS array by reading
`vec.get(i)` for `i < vec.size()`. -/
def jsArrayFromStdVector (vec : List TextRect) : List TextRect :=
  (List.range vec.length).map fun i => vec.getD i {}

/-- One engine operation, for reasoning about arbitrary call sequences.
`setVariable` / `getVariable` / `version` only touch backend tunables or read
constants; they do not touch any state modelled here, so they step to the
same state. -/
inductive Op
  | loadModel (m : Nat)
  | loadImage (img : ImageData)
  | clearImage
  | boundingBoxes (u : TextUnit)
  | textBoxes (u : TextUnit)
  | text
  | hocr
  | orientation
  | setVariable (k v : String)
  | getVariable (k : String)
  | version
deriving DecidableEq

/-- The state reached after one operation (results and progress traces
discarded). -/
def step (b : Backend) (e : Engine) : Op → Engine
  | .loadModel m => (loadModel b e m).2
  | .loadImage img => (loadImage b e img).2
  | .clearImage => clearImage e
  | .boundingBoxes u => (getBoundingBoxes b e u).2
  | .textBoxes u => (getTextBoxes b e u).2.1
  | .text => (getText b e).2.1
  | .hocr => (getHOCR b e).2.1
  | .orientation => (getOrientation b e).2
  | .setVariable _ _ => e
  | .getVariable _ => e
  | .version => e

/-- The state reached after a sequence of operations. -/
def run (b : Backend) : Engine → List Op → Engine
  | e, [] => e
  | e, op :: ops => run b (step b e op) ops

/-- Whether an `Except` result is a success. -/
def exceptOk : Except EngineError Unit → Bool
  | .ok _ => true
  | .error _ => false

/-- Whether this operation is a successful `loadImage` from state `e`. -/
def opImageSuccess (b : Backend) (e : Engine) : Op → Bool
  | .loadImage img => exceptOk (loadImage b e img).1
  | _ => false

/-- Whether this operation is a successful `loadModel` from state `e`. -/
def opModelSuccess (b : Backend) (e : Engine) : Op → Bool
  | .loadModel m => exceptOk (loadModel b e m).1
  | _ => false

/-- Whether some operation of the sequence is a successful `loadImage`. -/
def anyImageSuccess (b : Backend) : Engine → List Op → Bool
  | _, [] => false
  | e, op :: ops => opImageSuccess b e op || anyImageSuccess b (step b e op) ops

/-- Whether some operation of the sequence is a successful `loadModel`. -/
def anyModelSuccess (b : Backend) : Engine → List Op → Bool
  | _, [] => false
  | e, op :: ops => opModelSuccess b e op || anyModelSuccess b (step b e op) ops

/-- The query operations: everything except `loadModel` / `loadImage` /
`clearImage`. -/
def Op.isQuery : Op → Bool
  | .boundingBoxes _ => true
  | .textBoxes _ => true
  | .text => true
  | .hocr => true
  | .orientation => true
  | .setVariable _ _ => true
  | .getVariable _ => true
  | .version => true
  | _ => false

deriving instance DecidableEq for Except

/-! Concrete fixtures used by witnesses and counterexamples. -/

/-- First word of the synthetic single-line two-word layout of spec §8. -/
def wordFoo : WordCell :=
  { rect := { left := 0, right := 40, top := 0, bottom := 10 }, rawConf := 90, text := "foo" }

/-- Second word of the synthetic single-line two-word layout. -/
def wordBar : WordCell :=
  { rect := { left := 50, right := 90, top := 0, bottom := 10 }, rawConf := 85, text := "bar" }

/-- A one-line, two-word page. -/
def onePage : Page :=
  [{ rect := { left := 0, right := 90, top := 0, bottom := 10 }, rawConf := 95,
     text := "foo bar", words := [wordFoo, wordBar] }]

/-- A well-formed, decodable 10x10 image. -/
def img0 : ImageData := { width := 10, height := 10, dataLength := 400, content := 1 }

/-- A well-formed image whose bytes `pixReadMem` rejects. -/
def imgBad : ImageData := { width := 10, height := 10, dataLength := 400, content := 0 }

/-- A concrete deterministic backend: model 0 is corrupt, image content 0 is
undecodable, every page segments into `onePage`. -/
def okBackend : Backend :=
  { initOk := fun m => m != 0
    pixReadOk := fun img => img.content != 0
    analyzeResult := fun _ => some onePage
    recogResult := fun _ => some onePage
    recogProgress := fun _ => [30, 60]
    orientDetect := fun _ => some (10, 0)
    utf8Text := fun _ => "foo bar"
    hocrText := fun _ => "<p>foo bar</p>"
    tessVersion := "5.3.0" }

/-- A backend whose layout and recognition produce no result iterator
(blank page). -/
def blankBackend : Backend :=
  { okBackend with
    analyzeResult := fun _ => none
    recogResult := fun _ => none }

/-! Helper lemmas: how the JS lifecycle flags evolve along operations. -/

/-- One step sets `_imageLoaded` exactly on a successful `loadImage`;
no operation ever resets it. -/
theorem step_imageLoaded (b : Backend) (e : Engine) (op : Op) :
    (step b e op).imageLoaded = (e.imageLoaded || opImageSuccess b e op) := by
  cases op <;>
    simp only [step, opImageSuccess, loadModel, loadImage, clearImage, getBoundingBoxes,
      getTextBoxes, getText, getHOCR, getOrientation, doOCR, Bool.or_false] <;>
    (repeat' split) <;>
    simp_all [exceptOk, clearImage]

/-- One step sets `_modelLoaded` exactly on a successful `loadModel`;
no operation ever resets it. -/
theorem step_modelLoaded (b : Backend) (e : Engine) (op : Op) :
    (step b e op).modelLoaded = (e.modelLoaded || opModelSuccess b e op) := by
  cases op <;>
    simp only [step, opModelSuccess, loadModel, loadImage, clearImage, getBoundingBoxes,
      getTextBoxes, getText, getHOCR, getOrientation, doOCR, Bool.or_false] <;>
    (repeat' split) <;>
    simp_all [exceptOk, clearImage]

/-- Along a whole run, `_imageLoaded` is true iff it was true initially or
some `loadImage` of the sequence succeeded. -/
theorem run_imageLoaded (b : Backend) (ops : List Op) :
    ∀ e : Engine, (run b e ops).imageLoaded = (e.imageLoaded || anyImageSuccess b e ops) := by
  induction ops with
  | nil => intro e; simp [run, anyImageSuccess]
  | cons op ops ih =>
      intro e
      simp [run, anyImageSuccess, ih, step_imageLoaded, Bool.or_assoc]

/-- Along a whole run, `_modelLoaded` is true iff it was true initially or
some `loadModel` of the sequence succeeded. -/
theorem run_modelLoaded (b : Backend) (ops : List Op) :
    ∀ e : Engine, (run b e ops).modelLoaded = (e.modelLoaded || anyModelSuccess b e ops) := by
  induction ops with
  | nil => intro e; simp [run, anyModelSuccess]
  | cons op ops ih =>
      intro e
      simp [run, anyModelSuccess, ih, step_modelLoaded, Bool.or_assoc]

/-- One step preserves "ocrDone implies layoutDone". -/
theorem step_ocr_layout (b : Backend) (e : Engine) (op : Op)
    (h : e.ocr_done = true → e.layout_analysis_done = true) :
    (step b e op).ocr_done = true → (step b e op).layout_analysis_done = true := by
  cases op <;>
    simp only [step, loadModel, loadImage, clearImage, getBoundingBoxes,
      getTextBoxes, getText, getHOCR, getOrientation, doOCR] <;>
    (repeat' split) <;>
    simp_all [clearImage]

/-- A run preserves "ocrDone implies layoutDone". -/
theorem run_ocr_layout (b : Backend) (ops : List Op) :
    ∀ e : Engine, (e.ocr_done = true → e.layout_analysis_done = true) →
      ((run b e ops).ocr_done = true → (run b e ops).layout_analysis_done = true) := by
  induction ops with
  | nil => intro e h; simpa [run] using h
  | cons op ops ih => intro e h; exact ih (step b e op) (step_ocr_layout b e op h)

/-- Claim C1 (as amended): for every operation sequence from a fresh engine,
`boundingBoxes`, `textBoxes`, `text`, `hocr` and `orientation` called before
any successful `loadImage` fail with `NoImageError`; and `textBoxes`, `text`
and `hocr` called after a successful `loadImage` but before any successful
`loadModel` fail with `NoModelError` (the image guard runs before the model
guard, so with no image loaded the failure is `NoImageError` even when no
model is loaded either). -/
theorem lifecycle_guard (b : Backend) (ops : List Op) (u : TextUnit) :
    (anyImageSuccess b initEngine ops = false →
      ((getBoundingBoxes b (run b initEngine ops) u).1 = .error .NoImageError ∧
       (getTextBoxes b (run b initEngine ops) u).1 = .error .NoImageError ∧
       (getText b (run b initEngine ops)).1 = .error .NoImageError ∧
       (getHOCR b (run b initEngine ops)).1 = .error .NoImageError ∧
       (getOrientation b (run b initEngine ops)).1 = .error .NoImageError)) ∧
    (anyImageSuccess b initEngine ops = true → anyModelSuccess b initEngine ops = false →
      ((getTextBoxes b (run b initEngine ops) u).1 = .error .NoModelError ∧
       (getText b (run b initEngine ops)).1 = .error .NoModelError ∧
       (getHOCR b (run b initEngine ops)).1 = .error .NoModelError)) := by
  have hi := run_imageLoaded b ops initEngine
  have hm := run_modelLoaded b ops initEngine
  have hi0 : initEngine.imageLoaded = false := rfl
  have hm0 : initEngine.modelLoaded = false := rfl
  rw [hi0, Bool.false_or] at hi
  rw [hm0, Bool.false_or] at hm
  constructor
  · intro h
    rw [h] at hi
    refine ⟨?_, ?_, ?_, ?_, ?_⟩ <;>
      simp [getBoundingBoxes, getTextBoxes, getText, getHOCR, getOrientation, hi]
  · intro h1 h2
    rw [h1] at hi
    rw [h2] at hm
    refine ⟨?_, ?_, ?_⟩ <;>
      simp [getTextBoxes, getText, getHOCR, hi, hm]

/-- Claim C1 counterexample: `textBoxes` invoked on a fresh engine is a call
"before any successful loadModel", but it fails with `NoImageError`, not with
`NoModelError` as the claim demands. -/
theorem lifecycle_guard_cex :
    anyModelSuccess okBackend initEngine [] = false ∧
    (getTextBoxes okBackend (run okBackend initEngine []) .Word).1 = .error .NoImageError ∧
    EngineError.NoImageError ≠ EngineError.NoModelError := by
  refine ⟨by decide, by decide, by decide⟩

/-- Witness for `lifecycle_guard` at concrete inputs: the empty sequence
(no image) and the sequence that only loads an image (no model). -/
theorem lifecycle_guard_witness :
    (getBoundingBoxes okBackend (run okBackend initEngine []) .Word).1
        = .error .NoImageError ∧
    (getTextBoxes okBackend (run okBackend initEngine [.loadImage img0]) .Word).1
        = .error .NoModelError := by
  constructor
  · exact ((lifecycle_guard okBackend [] .Word).1 (by decide)).1
  · exact ((lifecycle_guard okBackend [.loadImage img0] .Word).2 (by decide) (by decide)).1

/-- Claim C9: in every state reachable by any operation sequence from a fresh
engine, `ocr_done_ = true` implies `layout_analysis_done_ = true`: `DoOCR`
sets both flags together, `LoadImage` and `ClearImage` clear both together,
and no operation sets `ocr_done_` alone. -/
theorem ocr_done_implies_layout_done (b : Backend) (ops : List Op)
    (h : (run b initEngine ops).ocr_done = true) :
    (run b initEngine ops).layout_analysis_done = true :=
  run_ocr_layout b ops initEngine (fun hh => by simp [initEngine] at hh) h

/-- Witness for `ocr_done_implies_layout_done`: a run that actually performs
recognition reaches a state with both flags set. -/
theorem ocr_done_implies_layout_done_witness :
    (run okBackend initEngine [.loadModel 1, .loadImage img0, .textBoxes .Word]).ocr_done
        = true ∧
    (run okBackend initEngine [.loadModel 1, .loadImage img0, .textBoxes .Word]).layout_analysis_done
        = true :=
  ⟨by decide,
    ocr_done_implies_layout_done okBackend
      [.loadModel 1, .loadImage img0, .textBoxes .Word] (by decide)⟩

/-- Characterization of a successful `loadImage`: the previous image was
cleared, the new image installed, both memoization flags reset and
`_imageLoaded` set. -/
theorem loadImage_ok (b : Backend) (e : Engine) (img : ImageData)
    (hok : (loadImage b e img).1 = .ok ()) :
    (loadImage b e img).2 =
      { clearImage e with
        tess := { (clearImage e).tess with image := some img }
        layout_analysis_done := false
        ocr_done := false
        imageLoaded := true } := by
  by_cases h1 : (img.dataLength : Int) < img.width * img.height * 4
  · simp [loadImage, if_pos h1] at hok
  · by_cases h2 : img.width ≤ 0 ∨ img.height ≤ 0
    · simp [loadImage, if_neg h1, if_pos h2] at hok
    · by_cases h3 : b.pixReadOk img = true
      · simp [loadImage, if_neg h1, if_neg h2, h3]
      · simp only [Bool.not_eq_true] at h3
        simp [loadImage, if_neg h1, if_neg h2, h3] at hok

/-- Claim C2 (as amended): a failed `loadImage` never alters `_imageLoaded`,
a `loadImage` failing validation (`InvalidImageError`) leaves the engine
entirely unchanged, and a failed `loadModel` leaves the engine entirely
unchanged (in particular `_modelLoaded`); but a `loadImage` failing with
`ImageDecodeError` has already cleared the previous image, so afterwards the
state is `clearImage e` and `layoutDone`/`ocrDone` are false — cleared, not
preserved as the original claim states. -/
theorem load_failure_state (b : Backend) (e : Engine) (img : ImageData) (m : Nat)
    (err errm : EngineError)
    (hfail : (loadImage b e img).1 = .error err)
    (hmfail : (loadModel b e m).1 = .error errm) :
    (loadImage b e img).2.imageLoaded = e.imageLoaded ∧
    (err = .InvalidImageError → (loadImage b e img).2 = e) ∧
    (err = .ImageDecodeError →
      (loadImage b e img).2 = clearImage e ∧
      (loadImage b e img).2.layout_analysis_done = false ∧
      (loadImage b e img).2.ocr_done = false) ∧
    (loadModel b e m).2 = e := by
  have hmodel : (loadModel b e m).2 = e := by
    by_cases hm : b.initOk m = true
    · simp [loadModel, hm] at hmfail
    · simp only [Bool.not_eq_true] at hm
      simp [loadModel, hm]
  by_cases h1 : (img.dataLength : Int) < img.width * img.height * 4
  · have herr : err = .InvalidImageError := by
      simp only [loadImage, if_pos h1] at hfail
      exact (Except.error.inj hfail).symm
    subst herr
    simp [loadImage, if_pos h1, hmodel, clearImage]
  · by_cases h2 : img.width ≤ 0 ∨ img.height ≤ 0
    · have herr : err = .InvalidImageError := by
        simp only [loadImage, if_neg h1, if_pos h2] at hfail
        exact (Except.error.inj hfail).symm
      subst herr
      simp [loadImage, if_neg h1, if_pos h2, hmodel, clearImage]
    · by_cases h3 : b.pixReadOk img = true
      · simp [loadImage, if_neg h1, if_neg h2, h3] at hfail
      · simp only [Bool.not_eq_true] at h3
        have herr : err = .ImageDecodeError := by
          simp only [loadImage, if_neg h1, if_neg h2, h3, Bool.false_eq_true, if_false] at hfail
          exact (Except.error.inj hfail).symm
        subst herr
        simp [loadImage, if_neg h1, if_neg h2, h3, hmodel, clearImage]

/-- Claim C2 counterexample: after a successful `loadImage` and a
`boundingBoxes` query the cached-analysis flag `layoutDone` is true; a second
`loadImage` whose bytes fail to decode fails with `ImageDecodeError`, yet
afterwards `layoutDone` is false — the failing call altered the
cached-analysis flags, contradicting the claim. -/
theorem load_failure_cex :
    (run okBackend initEngine [.loadImage img0, .boundingBoxes .Word]).layout_analysis_done
        = true ∧
    (loadImage okBackend
        (run okBackend initEngine [.loadImage img0, .boundingBoxes .Word]) imgBad).1
        = .error .ImageDecodeError ∧
    (loadImage okBackend
        (run okBackend initEngine [.loadImage img0, .boundingBoxes .Word]) imgBad).2.layout_analysis_done
        = false := by
  refine ⟨by decide, by decide, by decide⟩

/-- Witness for `load_failure_state` at concrete failing inputs. -/
theorem load_failure_witness :
    (loadImage okBackend initEngine imgBad).1 = .error .ImageDecodeError ∧
    (loadModel okBackend initEngine 0).1 = .error .ModelLoadError ∧
    (loadImage okBackend initEngine imgBad).2.imageLoaded = initEngine.imageLoaded ∧
    (loadModel okBackend initEngine 0).2 = initEngine := by
  refine ⟨by decide, by decide, ?_, ?_⟩
  · exact (load_failure_state okBackend initEngine imgBad 0 .ImageDecodeError .ModelLoadError
      (by decide) (by decide)).1
  · exact (load_failure_state okBackend initEngine imgBad 0 .ImageDecodeError .ModelLoadError
      (by decide) (by decide)).2.2.2

/-- Claim C5: immediately after every successful `loadImage` and after every
`clearImage`, the cached-analysis flags `layoutDone` and `ocrDone` are both
false, so the next `boundingBoxes` query actually runs the layout pass again
(the backend layout counter increments) instead of serving a cached result. -/
theorem invalidation_resets (b : Backend) (e : Engine) (img : ImageData) (u : TextUnit)
    (hok : (loadImage b e img).1 = .ok ()) :
    (loadImage b e img).2.layout_analysis_done = false ∧
    (loadImage b e img).2.ocr_done = false ∧
    (clearImage e).layout_analysis_done = false ∧
    (clearImage e).ocr_done = false ∧
    (getBoundingBoxes b (loadImage b e img).2 u).2.tess.layoutRuns
      = (loadImage b e img).2.tess.layoutRuns + 1 := by
  have h := loadImage_ok b e img hok
  rw [h]
  refine ⟨rfl, rfl, rfl, rfl, ?_⟩
  simp [getBoundingBoxes, TessBase.analyseLayout]

/-- Witness for `invalidation_resets`: loading a concrete valid image. -/
theorem invalidation_resets_witness :
    (loadImage okBackend initEngine img0).1 = .ok () ∧
    (loadImage okBackend initEngine img0).2.layout_analysis_done = false ∧
    (loadImage okBackend initEngine img0).2.ocr_done = false := by
  refine ⟨by decide, ?_, ?_⟩
  · exact (invalidation_resets okBackend initEngine img0 .Word (by decide)).1
  · exact (invalidation_resets okBackend initEngine img0 .Word (by decide)).2.1

/-- Claim C4: every successful `textBoxes`, `text` or `hocr` call delivers a
forced final progress value of exactly 100 — the callback trace ends with
100 — and when the recognition result is already cached (`ocrDone = true`)
the trace is exactly the single forced terminal `100`. -/
theorem progress_terminal (b : Backend) (e : Engine) (u : TextUnit)
    (hi : e.imageLoaded = true) (hm : e.modelLoaded = true) :
    (getTextBoxes b e u).2.2.getLast? = some 100 ∧
    (getText b e).2.2.getLast? = some 100 ∧
    (getHOCR b e).2.2.getLast? = some 100 ∧
    (e.ocr_done = true →
      (getTextBoxes b e u).2.2 = [100] ∧ (getText b e).2.2 = [100] ∧
      (getHOCR b e).2.2 = [100]) := by
  have hd : (doOCR b e).2.getLast? = some 100 := by
    unfold doOCR
    split
    · simp
    · rfl
  have hc : e.ocr_done = true → (doOCR b e).2 = [100] := by
    intro h
    simp [doOCR, h]
  refine ⟨?_, ?_, ?_, fun h => ⟨?_, ?_, ?_⟩⟩ <;>
    simp [getTextBoxes, getText, getHOCR, hi, hm, hd, hc, *]

/-- Witness for `progress_terminal`: after loading a model and an image, the
`textBoxes` progress trace ends with the forced 100. -/
theorem progress_terminal_witness :
    (run okBackend initEngine [.loadModel 1, .loadImage img0]).imageLoaded = true ∧
    (getTextBoxes okBackend (run okBackend initEngine [.loadModel 1, .loadImage img0]) .Word).2.2.getLast?
      = some 100 := by
  refine ⟨by decide, ?_⟩
  exact (progress_terminal okBackend (run okBackend initEngine [.loadModel 1, .loadImage img0])
    .Word (by decide) (by decide)).1

/-- Claim C6: `orientation()` follows the four-step decision rule exactly.
With an image loaded, `getOrientation` succeeds and returns the decision rule
applied to the detector output; on detector failure it returns rotation 0
with confidence 0 (not an error); otherwise the branch on
`|up_conf| - |left_conf| > 5.0`, `up_conf > 0` and `left_conf < 0` picks
rotation 0 / 180 / 90 / 270, always with confidence exactly 1. -/
theorem orientation_decision (b : Backend) (e : Engine) (up_conf left_conf : ℚ)
    (hi : e.imageLoaded = true) :
    (getOrientation b e).1
        = .ok (orientationFromDetect (e.tess.image.bind b.orientDetect)) ∧
    orientationFromDetect none = { rotation := 0, confidence := 0 } ∧
    (|up_conf| - |left_conf| > 5 → up_conf > 0 →
      orientationFromDetect (some (up_conf, left_conf))
        = { rotation := 0, confidence := 1 }) ∧
    (|up_conf| - |left_conf| > 5 → ¬up_conf > 0 →
      orientationFromDetect (some (up_conf, left_conf))
        = { rotation := 180, confidence := 1 }) ∧
    (¬(|up_conf| - |left_conf| > 5) → left_conf < 0 →
      orientationFromDetect (some (up_conf, left_conf))
        = { rotation := 90, confidence := 1 }) ∧
    (¬(|up_conf| - |left_conf| > 5) → ¬left_conf < 0 →
      orientationFromDetect (some (up_conf, left_conf))
        = { rotation := 270, confidence := 1 }) := by
  refine ⟨by simp [getOrientation, hi], rfl, ?_, ?_, ?_, ?_⟩ <;>
    intro h1 h2 <;>
    simp [orientationFromDetect, h1, h2]

/-- Witness for `orientation_decision`, covering the spec §8 decision table:
`(10, 0)` gives rotation 0, `(-10, 0)` gives 180, `(0, -10)` gives 90,
`(0, 10)` gives 270, and the boundary case `(1, 1)` falls into the 90/270
branch (rotation 270). -/
theorem orientation_decision_witness :
    (getOrientation okBackend (run okBackend initEngine [.loadImage img0])).1
        = .ok { rotation := 0, confidence := 1 } ∧
    orientationFromDetect (some (-10, 0)) = { rotation := 180, confidence := 1 } ∧
    orientationFromDetect (some (0, -10)) = { rotation := 90, confidence := 1 } ∧
    orientationFromDetect (some (0, 10)) = { rotation := 270, confidence := 1 } ∧
    orientationFromDetect (some (1, 1)) = { rotation := 270, confidence := 1 } := by
  have h := orientation_decision okBackend (run okBackend initEngine [.loadImage img0])
    10 0 (by decide)
  refine ⟨?_, ?_, ?_, ?_, ?_⟩
  · rw [h.1]
    have : (run okBackend initEngine [.loadImage img0]).tess.image.bind okBackend.orientDetect
        = some (10, 0) := by decide
    rw [this, h.2.2.1 (by norm_num) (by norm_num)]
  · exact (orientation_decision okBackend (run okBackend initEngine [.loadImage img0])
      (-10) 0 (by decide)).2.2.2.1 (by norm_num) (by norm_num)
  · exact (orientation_decision okBackend (run okBackend initEngine [.loadImage img0])
      0 (-10) (by decide)).2.2.2.2.1 (by norm_num) (by norm_num)
  · exact (orientation_decision okBackend (run okBackend initEngine [.loadImage img0])
      0 10 (by decide)).2.2.2.2.2 (by norm_num) (by norm_num)
  · exact (orientation_decision okBackend (run okBackend initEngine [.loadImage img0])
      1 1 (by decide)).2.2.2.2.2 (by norm_num) (by norm_num)

/-- The `StartOfLine` bit of a word-level item is set iff the word is first
in its line. -/
theorem wordTextRect_start (wt : Bool) (n i : Nat) (w : WordCell) :
    (wordTextRect wt n i w).hasFlag StartOfLine = decide (i = 0) := by
  simp only [wordTextRect, TextRect.hasFlag]
  by_cases h0 : i = 0
  · rw [if_pos h0, decide_eq_true h0]
    by_cases h1 : i + 1 = n
    · rw [if_pos h1]; decide
    · rw [if_neg h1]; decide
  · rw [if_neg h0, decide_eq_false h0]
    by_cases h1 : i + 1 = n
    · rw [if_pos h1]; decide
    · rw [if_neg h1]; decide

/-- The `EndOfLine` bit of a word-level item is set iff the word is last in
its line. -/
theorem wordTextRect_last (wt : Bool) (n i : Nat) (w : WordCell) :
    (wordTextRect wt n i w).hasFlag EndOfLine = decide (i + 1 = n) := by
  simp only [wordTextRect, TextRect.hasFlag]
  by_cases h1 : i + 1 = n
  · rw [if_pos h1, decide_eq_true h1]
    by_cases h0 : i = 0
    · rw [if_pos h0]; decide
    · rw [if_neg h0]; decide
  · rw [if_neg h1, decide_eq_false h1]
    by_cases h0 : i = 0
    · rw [if_pos h0]; decide
    · rw [if_neg h0]; decide

/-- Claim C7: line-granularity items always have flags 0; a word-granularity
item carries `StartOfLine` exactly when it is the first word of its enclosing
text line and `EndOfLine` exactly when it is the last (a single-word line
carries both, since then `j = 0` and `j + 1 = 1` hold together); and on the
concrete single-line two-word layout, word-level `boundingBoxes` output has
exactly one `StartOfLine` item and exactly one `EndOfLine` item. -/
theorem layout_flag_rule (page : Page) (with_text : Bool) (ln : LineCell) (j : Nat)
    (hln : ln ∈ page) (hj : j < ln.words.length) :
    (∀ tr ∈ getBoxesFromPage page .Line with_text, tr.flags = 0) ∧
    ((wordTextRect with_text ln.words.length j ln.words[j]).hasFlag StartOfLine
        = decide (j = 0)) ∧
    ((wordTextRect with_text ln.words.length j ln.words[j]).hasFlag EndOfLine
        = decide (j + 1 = ln.words.length)) ∧
    (wordTextRect with_text ln.words.length j ln.words[j]
        ∈ getBoxesFromPage page .Word with_text) ∧
    ((getBoxesFromPage onePage .Word false).countP (fun tr => tr.hasFlag StartOfLine) = 1 ∧
     (getBoxesFromPage onePage .Word false).countP (fun tr => tr.hasFlag EndOfLine) = 1) := by
  refine ⟨?_, ?_, ?_, ?_, by decide, by decide⟩
  · intro tr htr
    simp only [getBoxesFromPage, TextUnit.toNat, Nat.lt_irrefl, if_false] at htr
    obtain ⟨ln2, -, rfl⟩ := List.mem_map.mp htr
    rfl
  · exact wordTextRect_start with_text ln.words.length j ln.words[j]
  · exact wordTextRect_last with_text ln.words.length j ln.words[j]
  · simp only [getBoxesFromPage]
    rw [if_pos (by decide : TextUnit.Word.toNat < TextUnit.Line.toNat)]
    refine List.mem_flatMap.mpr ⟨ln, hln, ?_⟩
    refine List.mem_map.mpr ⟨(j, ln.words[j]), ?_, rfl⟩
    rw [List.mk_mem_enum_iff_getElem?]
    exact List.getElem?_eq_getElem hj

/-- Witness for `layout_flag_rule` on the one-line two-word page: the first
word carries `StartOfLine` and not `EndOfLine`. -/
theorem layout_flag_rule_witness :
    (0 : Nat) < ([wordFoo, wordBar] : List WordCell).length ∧
    (wordTextRect false ([wordFoo, wordBar] : List WordCell).length 0 wordFoo).hasFlag StartOfLine
        = true ∧
    (wordTextRect false ([wordFoo, wordBar] : List WordCell).length 0 wordFoo).hasFlag EndOfLine
        = false := by
  have h := layout_flag_rule onePage false
    { rect := { left := 0, right := 90, top := 0, bottom := 10 }, rawConf := 95,
      text := "foo bar", words := [wordFoo, wordBar] } 0
    (by decide) (by decide)
  exact ⟨by decide, h.2.1, h.2.2.1⟩

/-- Whether a raw backend percentage score lies in the contractual range
`[0, 100]`. -/
def confInRange (q : ℚ) : Bool :=
  decide (0 ≤ q) && decide (q ≤ 100)

/-- Backend contract on a result hierarchy: every raw confidence (line and
word) lies in `[0, 100]`. -/
def cellConfsOK : Option Page → Bool
  | none => true
  | some page =>
      page.all fun ln => confInRange ln.rawConf && ln.words.all fun w => confInRange w.rawConf

/-- Scaling a raw percentage in `[0, 100]` by `0.01` lands in `[0, 1]`. -/
theorem conf_scale_bounds (q : ℚ) (h0 : 0 ≤ q) (h1 : q ≤ 100) :
    0 ≤ q * (1 / 100) ∧ q * (1 / 100) ≤ 1 := by
  constructor
  · exact mul_nonneg h0 (by norm_num)
  · linarith

/-- Mapping a function of the element alone over an enumerated list forgets
the indices. -/
theorem enum_map_val {α β : Type} (h : α → β) (ws : List α) :
    ws.enum.map (fun p => h p.2) = ws.map h := by
  rw [show (fun p : Nat × α => h p.2) = h ∘ Prod.snd from rfl, ← List.map_map,
    List.enum_map_snd]

/-- The result state of `DoOCR` still satisfies the backend confidence
contract, given that the cached page and every fresh recognition result do. -/
theorem doOCR_confsOK (b : Backend) (e : Engine)
    (hb : ∀ img : ImageData, cellConfsOK (b.recogResult img) = true)
    (he : cellConfsOK e.tess.page = true) :
    cellConfsOK (doOCR b e).1.tess.page = true := by
  unfold doOCR
  split
  · unfold TessBase.recognize
    cases himg : e.tess.image with
    | none => simpa [himg] using he
    | some img => simpa [himg] using hb img
  · exact he

/-- Every item produced by a `GetBoxes` traversal with text has confidence in
`[0, 1]`, provided the raw scores of the result state satisfy the backend
contract. -/
theorem getBoxes_conf_mem (t : TessBase) (u : TextUnit) (tr : TextRect)
    (hok : cellConfsOK t.page = true) (htr : tr ∈ getBoxes t u true) :
    0 ≤ tr.confidence ∧ tr.confidence ≤ 1 := by
  cases hp : t.page with
  | none =>
      unfold getBoxes at htr
      rw [hp] at htr
      exact absurd htr (List.not_mem_nil tr)
  | some page =>
      unfold getBoxes at htr
      rw [hp] at htr
      rw [hp] at hok
      have htr2 : tr ∈ getBoxesFromPage page u true := htr
      simp only [cellConfsOK, List.all_eq_true, Bool.and_eq_true, confInRange,
        decide_eq_true_eq] at hok
      unfold getBoxesFromPage at htr2
      by_cases hu : u.toNat < TextUnit.Line.toNat
      · rw [if_pos hu] at htr2
        obtain ⟨ln, hln, htr3⟩ := List.mem_flatMap.mp htr2
        obtain ⟨q, hq, rfl⟩ := List.mem_map.mp htr3
        have hw : q.2 ∈ ln.words := by
          rw [List.mem_enum_iff_getElem?] at hq
          exact List.getElem?_mem hq
        have hbounds := (hok ln hln).2 q.2 hw
        exact conf_scale_bounds q.2.rawConf hbounds.1 hbounds.2
      · rw [if_neg hu] at htr2
        obtain ⟨ln, hln, rfl⟩ := List.mem_map.mp htr2
        have hbounds := (hok ln hln).1
        exact conf_scale_bounds ln.rawConf hbounds.1 hbounds.2

/-- Claim C8: the confidence of every item produced with text is the raw
percentage score times `0.01` (stated as a map equality over the whole
traversal, at both granularities), and consequently, under the backend
contract that raw scores lie in `[0, 100]`, every item returned by a
successful `textBoxes` call has `0 ≤ confidence ≤ 1`. -/
theorem confidence_bounds (b : Backend) (e : Engine) (u : TextUnit) (l : List TextRect)
    (hb : ∀ img : ImageData, cellConfsOK (b.recogResult img) = true)
    (he : cellConfsOK e.tess.page = true)
    (hres : (getTextBoxes b e u).1 = .ok l) :
    (∀ page : Page, (getBoxesFromPage page u true).map TextRect.confidence
        = (if u = .Word then
            (page.flatMap fun ln => ln.words).map fun w => w.rawConf * (1 / 100)
          else
            page.map fun ln => ln.rawConf * (1 / 100))) ∧
    (∀ tr ∈ l, 0 ≤ tr.confidence ∧ tr.confidence ≤ 1) := by
  constructor
  · intro page
    cases u with
    | Word =>
        rw [if_pos rfl]
        simp only [getBoxesFromPage]
        rw [if_pos (by decide : TextUnit.Word.toNat < TextUnit.Line.toNat)]
        rw [List.map_flatMap, List.map_flatMap]
        congr 1
        funext ln
        rw [List.map_map]
        exact enum_map_val (fun w => w.rawConf * (1 / 100)) ln.words
    | Line =>
        rw [if_neg (by decide : ¬(TextUnit.Line = TextUnit.Word))]
        simp only [getBoxesFromPage]
        rw [if_neg (by decide : ¬(TextUnit.Line.toNat < TextUnit.Line.toNat)),
          List.map_map]
        rfl
  · by_cases hi : e.imageLoaded = true
    · by_cases hm : e.modelLoaded = true
      · have hok := doOCR_confsOK b e hb he
        have hl : getBoxes (doOCR b e).1.tess u true = l := by
          simp only [getTextBoxes, hi, hm, Bool.true_eq_false, if_false] at hres
          exact Except.ok.inj hres
        intro tr htr
        rw [← hl] at htr
        exact getBoxes_conf_mem (doOCR b e).1.tess u tr hok htr
      · simp only [Bool.not_eq_true] at hm
        simp [getTextBoxes, hi, hm] at hres
    · simp only [Bool.not_eq_true] at hi
      simp [getTextBoxes, hi] at hres

/-- Witness for `confidence_bounds`: the first item of the concrete
`textBoxes` result on the one-line two-word page has confidence in `[0, 1]`. -/
theorem confidence_bounds_witness :
    0 ≤ (wordTextRect true 2 0 wordFoo).confidence ∧
    (wordTextRect true 2 0 wordFoo).confidence ≤ 1 := by
  have hb : ∀ img : ImageData, cellConfsOK (okBackend.recogResult img) = true := by
    intro img
    show cellConfsOK (some onePage) = true
    decide
  have h := (confidence_bounds okBackend
    (run okBackend initEngine [.loadModel 1, .loadImage img0]) .Word
    (getBoxes (doOCR okBackend (run okBackend initEngine [.loadModel 1, .loadImage img0])).1.tess
      .Word true)
    hb (by decide) rfl).2
  exact h (wordTextRect true 2 0 wordFoo)
    (show wordTextRect true 2 0 wordFoo ∈
        ([wordTextRect true 2 0 wordFoo, wordTextRect true 2 1 wordBar] : List TextRect) from
      List.mem_cons_self _ _)

/-- Claim C10: when the backend produces no result iterator for the current
image (`GetIterator()` null, e.g. a blank page), `boundingBoxes` and
`textBoxes` both return an empty list rather than an error or a crash, and
the JS `jsArrayFromStdVector` conversion turns the empty vector into an
empty array. -/
theorem empty_iterator_empty_list (b : Backend) (e : Engine) (u : TextUnit) (img : ImageData)
    (hi : e.imageLoaded = true) (hm : e.modelLoaded = true)
    (hld : e.layout_analysis_done = false) (hod : e.ocr_done = false)
    (himg : e.tess.image = some img)
    (ha : b.analyzeResult img = none) (hr : b.recogResult img = none) :
    (getBoundingBoxes b e u).1 = .ok [] ∧
    (getTextBoxes b e u).1 = .ok [] ∧
    jsArrayFromStdVector [] = [] := by
  refine ⟨?_, ?_, rfl⟩
  · simp [getBoundingBoxes, hi, hld, TessBase.analyseLayout, getBoxes, himg, ha]
  · simp [getTextBoxes, hi, hm, doOCR, hod, TessBase.recognize, himg, hr, getBoxes]

/-- Witness for `empty_iterator_empty_list` with the blank-page backend. -/
theorem empty_iterator_witness :
    (getBoundingBoxes blankBackend
        (run blankBackend initEngine [.loadModel 1, .loadImage img0]) .Word).1 = .ok [] ∧
    (getTextBoxes blankBackend
        (run blankBackend initEngine [.loadModel 1, .loadImage img0]) .Word).1 = .ok [] := by
  have h := empty_iterator_empty_list blankBackend
    (run blankBackend initEngine [.loadModel 1, .loadImage img0]) .Word img0
    (by decide) (by decide) (by decide) (by decide) (by decide) (by decide) (by decide)
  exact ⟨h.1, h.2.1⟩

/-- Consistency of the wrapper's memoization flags with the backend state:
`layout_analysis_done_` tracks whether the backend has computed lines, and
`ocr_done_` whether it has recognized.  Holds in every reachable state. -/
def FlagsInv (e : Engine) : Prop :=
  e.layout_analysis_done = e.tess.layoutComputed ∧ e.ocr_done = e.tess.recognized

/-- Layout-pass budget of a state: the passes already run plus one still
allowed if the memoization flag is clear. -/
def mLayout (e : Engine) : Nat :=
  e.tess.layoutRuns + (if e.layout_analysis_done then 0 else 1)

/-- Recognition-pass budget of a state. -/
def mRecog (e : Engine) : Nat :=
  e.tess.recogRuns + (if e.ocr_done then 0 else 1)

/-- `DoOCR` preserves the invariant, never exceeds the pass budgets, and
leaves the JS flags alone. -/
theorem doOCR_step (b : Backend) (e : Engine) (hInv : FlagsInv e) :
    FlagsInv (doOCR b e).1 ∧ mLayout (doOCR b e).1 ≤ mLayout e ∧
    mRecog (doOCR b e).1 ≤ mRecog e ∧
    (doOCR b e).1.imageLoaded = e.imageLoaded ∧
    (doOCR b e).1.modelLoaded = e.modelLoaded := by
  obtain ⟨h1, h2⟩ := hInv
  by_cases ho : e.ocr_done = false
  · cases himg : e.tess.image with
    | none =>
        have hs : (doOCR b e).1 = { e with
            tess := { e.tess with layoutComputed := true, recognized := true }
            layout_analysis_done := true
            ocr_done := true } := by
          simp [doOCR, ho, TessBase.recognize, himg]
        rw [hs]
        refine ⟨⟨rfl, rfl⟩, ?_, ?_, rfl, rfl⟩
        · simp [mLayout] <;> first
            | omega
            | (split <;> omega)
            | (split <;> split <;> omega)
        · simp [mRecog] <;> first
            | omega
            | (split <;> omega)
            | (split <;> split <;> omega)
    | some img =>
        have hs : (doOCR b e).1 = { e with
            tess := { e.tess with
              page := b.recogResult img
              layoutComputed := true
              recognized := true
              layoutRuns :=
                if e.tess.layoutComputed then e.tess.layoutRuns else e.tess.layoutRuns + 1
              recogRuns := e.tess.recogRuns + 1 }
            layout_analysis_done := true
            ocr_done := true } := by
          simp [doOCR, ho, TessBase.recognize, himg]
        rw [hs]
        refine ⟨⟨rfl, rfl⟩, ?_, ?_, rfl, rfl⟩
        · simp [mLayout, ← h1] <;> first
            | omega
            | (split <;> omega)
            | (split <;> split <;> omega)
        · simp [mRecog, ho] <;> first
            | omega
            | (split <;> omega)
            | (split <;> split <;> omega)
  · have hs : (doOCR b e).1 = e := by simp [doOCR, ho]
    rw [hs]
    exact ⟨⟨h1, h2⟩, le_refl _, le_refl _, rfl, rfl⟩

/-- Any single query operation preserves the invariant, never exceeds the
pass budgets, and leaves the JS lifecycle flags alone. -/
theorem query_step (b : Backend) (e : Engine) (op : Op)
    (hq : op.isQuery = true) (hInv : FlagsInv e) :
    FlagsInv (step b e op) ∧
    mLayout (step b e op) ≤ mLayout e ∧
    mRecog (step b e op) ≤ mRecog e ∧
    (step b e op).imageLoaded = e.imageLoaded ∧
    (step b e op).modelLoaded = e.modelLoaded := by
  obtain ⟨h1, h2⟩ := hInv
  have base : ∀ f : Engine, f = e →
      FlagsInv f ∧ mLayout f ≤ mLayout e ∧ mRecog f ≤ mRecog e ∧
      f.imageLoaded = e.imageLoaded ∧ f.modelLoaded = e.modelLoaded := by
    rintro f rfl
    exact ⟨⟨h1, h2⟩, le_refl _, le_refl _, rfl, rfl⟩
  cases op with
  | boundingBoxes u =>
      by_cases hi : e.imageLoaded = false
      · exact base _ (by simp [step, getBoundingBoxes, hi])
      · by_cases hld : e.layout_analysis_done = false
        · have hs : step b e (.boundingBoxes u) =
              { e with tess := e.tess.analyseLayout b, layout_analysis_done := true } := by
            simp [step, getBoundingBoxes, hi, hld]
          rw [hs]
          refine ⟨⟨rfl, h2⟩, ?_, ?_, rfl, rfl⟩
          · simp [mLayout, TessBase.analyseLayout, hld] <;> first
            | omega
            | (split <;> omega)
            | (split <;> split <;> omega)
          · simp [mRecog, TessBase.analyseLayout] <;> first
            | omega
            | (split <;> omega)
            | (split <;> split <;> omega)
        · exact base _ (by simp [step, getBoundingBoxes, hi, hld])
  | textBoxes u =>
      by_cases hi : e.imageLoaded = false
      · exact base _ (by simp [step, getTextBoxes, hi])
      · by_cases hm : e.modelLoaded = false
        · exact base _ (by simp [step, getTextBoxes, hi, hm])
        · have hs : step b e (.textBoxes u) = (doOCR b e).1 := by
            simp [step, getTextBoxes, hi, hm]
          rw [hs]
          exact doOCR_step b e ⟨h1, h2⟩
  | text =>
      by_cases hi : e.imageLoaded = false
      · exact base _ (by simp [step, getText, hi])
      · by_cases hm : e.modelLoaded = false
        · exact base _ (by simp [step, getText, hi, hm])
        · have hs : step b e .text = (doOCR b e).1 := by
            simp [step, getText, hi, hm]
          rw [hs]
          exact doOCR_step b e ⟨h1, h2⟩
  | hocr =>
      by_cases hi : e.imageLoaded = false
      · exact base _ (by simp [step, getHOCR, hi])
      · by_cases hm : e.modelLoaded = false
        · exact base _ (by simp [step, getHOCR, hi, hm])
        · have hs : step b e .hocr = (doOCR b e).1 := by
            simp [step, getHOCR, hi, hm]
          rw [hs]
          exact doOCR_step b e ⟨h1, h2⟩
  | orientation =>
      by_cases hi : e.imageLoaded = false
      · exact base _ (by simp [step, getOrientation, hi])
      · exact base _ (by simp [step, getOrientation, hi])
  | setVariable k v => exact base _ rfl
  | getVariable k => exact base _ rfl
  | version => exact base _ rfl
  | loadModel m => simp [Op.isQuery] at hq
  | loadImage img => simp [Op.isQuery] at hq
  | clearImage => simp [Op.isQuery] at hq

/-- A whole run of query operations preserves the invariant, never exceeds
the pass budgets, and leaves the JS lifecycle flags alone. -/
theorem query_run (b : Backend) (ops : List Op)
    (hq : ∀ op ∈ ops, op.isQuery = true) :
    ∀ e : Engine, FlagsInv e →
      FlagsInv (run b e ops) ∧
      mLayout (run b e ops) ≤ mLayout e ∧
      mRecog (run b e ops) ≤ mRecog e ∧
      (run b e ops).imageLoaded = e.imageLoaded ∧
      (run b e ops).modelLoaded = e.modelLoaded := by
  induction ops with
  | nil => intro e h; exact ⟨h, le_refl _, le_refl _, rfl, rfl⟩
  | cons op ops ih =>
      intro e h
      have hop := query_step b e op (hq op (by simp)) h
      have hrest := ih (fun o ho => hq o (by simp [ho])) (step b e op) hop.1
      exact ⟨hrest.1, le_trans hrest.2.1 hop.2.1, le_trans hrest.2.2.1 hop.2.2.1,
        hrest.2.2.2.1.trans hop.2.2.2.1, hrest.2.2.2.2.trans hop.2.2.2.2⟩

/-- After a successful `loadImage` the invariant holds, both memoization
flags are clear and `_imageLoaded` is set. -/
theorem loadImage_ok_flags (b : Backend) (e : Engine) (img : ImageData)
    (hok : (loadImage b e img).1 = .ok ()) :
    FlagsInv (loadImage b e img).2 ∧
    (loadImage b e img).2.layout_analysis_done = false ∧
    (loadImage b e img).2.ocr_done = false ∧
    (loadImage b e img).2.imageLoaded = true := by
  rw [loadImage_ok b e img hok]
  exact ⟨⟨rfl, rfl⟩, rfl, rfl, rfl⟩

/-- Calling `getBoundingBoxes` twice in a row yields identical results, and
the second call runs no further layout pass. -/
theorem boundingBoxes_twice (b : Backend) (e : Engine) (u : TextUnit) :
    (getBoundingBoxes b (getBoundingBoxes b e u).2 u).1 = (getBoundingBoxes b e u).1 ∧
    (getBoundingBoxes b (getBoundingBoxes b e u).2 u).2.tess.layoutRuns
      = (getBoundingBoxes b e u).2.tess.layoutRuns := by
  by_cases hi : e.imageLoaded = false
  · simp [getBoundingBoxes, hi]
  · by_cases hld : e.layout_analysis_done = false
    · simp [getBoundingBoxes, hi, hld]
    · simp [getBoundingBoxes, hi, hld]

/-- A `getTextBoxes` call from a state whose backend has already computed
the layout never runs a further layout pass (the recognizer skips its
internal layout step). -/
theorem textBoxes_layoutRuns (b : Backend) (g : Engine) (u2 : TextUnit)
    (hc : g.tess.layoutComputed = true) :
    (getTextBoxes b g u2).2.1.tess.layoutRuns = g.tess.layoutRuns := by
  by_cases hi : g.imageLoaded = false
  · simp [getTextBoxes, hi]
  · by_cases hm : g.modelLoaded = false
    · simp [getTextBoxes, hi, hm]
    · by_cases ho : g.ocr_done = false
      · cases himg : g.tess.image with
        | none => simp [getTextBoxes, hi, hm, doOCR, ho, TessBase.recognize, himg]
        | some img => simp [getTextBoxes, hi, hm, doOCR, ho, TessBase.recognize, himg, hc]
      · simp [getTextBoxes, hi, hm, doOCR, ho]

/-- After a `getBoundingBoxes` call, a following `getTextBoxes` call reuses
the already-computed layout: the layout counter does not move. -/
theorem textBoxes_after_boxes (b : Backend) (e : Engine) (u u2 : TextUnit)
    (hInv : FlagsInv e) :
    (getTextBoxes b (getBoundingBoxes b e u).2 u2).2.1.tess.layoutRuns
      = (getBoundingBoxes b e u).2.tess.layoutRuns := by
  by_cases hi : e.imageLoaded = false
  · have h2 : (getBoundingBoxes b e u).2 = e := by simp [getBoundingBoxes, hi]
    rw [h2]
    simp [getTextBoxes, hi]
  · have hc : (getBoundingBoxes b e u).2.tess.layoutComputed = true := by
      by_cases hld : e.layout_analysis_done = false
      · simp [getBoundingBoxes, hi, hld, TessBase.analyseLayout]
      · simp only [Bool.not_eq_false] at hld
        have h2 : (getBoundingBoxes b e u).2 = e := by
          simp [getBoundingBoxes, hi, hld]
        rw [h2, ← hInv.1]
        exact hld
    exact textBoxes_layoutRuns b _ u2 hc

/-- Claim C3: between one successful `loadImage` and the next
`loadImage`/`clearImage`, the expensive backend layout pass runs at most
once and the recognition pass at most once, no matter which and how many
queries are issued; calling `boundingBoxes` twice yields identical results
with no further layout run; and a `textBoxes` call issued after a
`boundingBoxes` call reuses the already-computed layout instead of
recomputing it. -/
theorem memoization_bound (b : Backend) (e0 e1 f f1 : Engine) (img : ImageData)
    (ops : List Op) (u u2 : TextUnit)
    (hok : (loadImage b e0 img).1 = .ok ())
    (he1 : e1 = (loadImage b e0 img).2)
    (hq : ∀ op ∈ ops, op.isQuery = true)
    (hf : f = run b e1 ops)
    (hf1 : f1 = (getBoundingBoxes b f u).2) :
    f.tess.layoutRuns ≤ e1.tess.layoutRuns + 1 ∧
    f.tess.recogRuns ≤ e1.tess.recogRuns + 1 ∧
    (getBoundingBoxes b f1 u).1 = (getBoundingBoxes b f u).1 ∧
    (getBoundingBoxes b f1 u).2.tess.layoutRuns = f1.tess.layoutRuns ∧
    (getTextBoxes b f1 u2).2.1.tess.layoutRuns = f1.tess.layoutRuns := by
  subst he1 hf hf1
  obtain ⟨hInv1, hld1, hod1, hi1⟩ := loadImage_ok_flags b e0 img hok
  have hrun := query_run b ops hq _ hInv1
  refine ⟨?_, ?_, ?_, ?_, ?_⟩
  · have h1 : (run b (loadImage b e0 img).2 ops).tess.layoutRuns
        ≤ mLayout (run b (loadImage b e0 img).2 ops) := Nat.le_add_right _ _
    have h2 := hrun.2.1
    have h3 : mLayout (loadImage b e0 img).2 = (loadImage b e0 img).2.tess.layoutRuns + 1 := by
      simp [mLayout, hld1]
    omega
  · have h1 : (run b (loadImage b e0 img).2 ops).tess.recogRuns
        ≤ mRecog (run b (loadImage b e0 img).2 ops) := Nat.le_add_right _ _
    have h2 := hrun.2.2.1
    have h3 : mRecog (loadImage b e0 img).2 = (loadImage b e0 img).2.tess.recogRuns + 1 := by
      simp [mRecog, hod1]
    omega
  · exact (boundingBoxes_twice b _ u).1
  · exact (boundingBoxes_twice b _ u).2
  · exact textBoxes_after_boxes b _ u u2 hrun.1

/-- Witness for `memoization_bound`: after loading an image and issuing a
`boundingBoxes` query followed by an `orientation` query, the layout counter
is still at most one above its post-load value. -/
theorem memoization_bound_witness :
    (loadImage okBackend initEngine img0).1 = .ok () ∧
    (run okBackend (loadImage okBackend initEngine img0).2
        [Op.boundingBoxes TextUnit.Word, Op.orientation]).tess.layoutRuns
      ≤ (loadImage okBackend initEngine img0).2.tess.layoutRuns + 1 := by
  refine ⟨by decide, ?_⟩
  exact (memoization_bound okBackend initEngine (loadImage okBackend initEngine img0).2
    (run okBackend (loadImage okBackend initEngine img0).2
      [Op.boundingBoxes TextUnit.Word, Op.orientation])
    (getBoundingBoxes okBackend (run okBackend (loadImage okBackend initEngine img0).2
      [Op.boundingBoxes TextUnit.Word, Op.orientation]) TextUnit.Word).2
    img0 [Op.boundingBoxes TextUnit.Word, Op.orientation] TextUnit.Word TextUnit.Word
    (by decide) rfl (by decide) rfl rfl).1
